import Mathlib

/-!
Verification development for the chained-fixups core of a Mach-O library
(package `fixupchains`): the `LC_DYLD_CHAINED_FIXUPS` parser, chain walker,
pointer queries and the read-through rebased reader.

The stateful Go code is shallowly embedded: byte sources (`*bytes.Reader`,
`types.MachoReader`) become `List Nat` values holding bytes, machine words
become `Nat` with explicit `% 2 ^ 64` where 64-bit wrap-around matters,
fallible operations return an `Outcome` that separates Go `error` returns
from Go runtime panics (out-of-range slice indexing), and the chain-walk
loop is given explicit fuel (the loop advances at least one byte per
iteration, so `image.length + 2` fuel is always enough; exhaustion is a
distinct `Outcome` constructor, never silent success).

Idealisations, stated once here: byte lists model `[]byte` whose entries
are below 256 and whose capacity equals its length; the `int64` narrowing
of `Seek` offsets (relevant only for file offsets of at least 2^63) is not
modelled.
-/

set_option maxRecDepth 4000

/-- Go runtime panics that the modelled code can hit. -/
inductive GoPanic where
  | indexOutOfRange
  | sliceOutOfRange
deriving DecidableEq, Repr

/-- Go `error` values returned by the modelled code. -/
inductive GoErr where
  | truncatedRead
  | unknownPointerFormat (v : Nat)
  | unterminatedString (off : Nat)
  | notABindPointer
  | overlayMismatch (off : Nat)
deriving DecidableEq, Repr

/-- Result of running a piece of the modelled Go code: normal value,
returned error, runtime panic, or exhaustion of the model's loop fuel. -/
inductive Outcome (α : Type) where
  | ok (val : α)
  | fail (e : GoErr)
  | crash (p : GoPanic)
  | fuelOut
deriving DecidableEq, Repr

namespace Outcome

def map {α β : Type} (f : α → β) : Outcome α → Outcome β
  | .ok a => .ok (f a)
  | .fail e => .fail e
  | .crash p => .crash p
  | .fuelOut => .fuelOut

def isOk {α : Type} : Outcome α → Bool
  | .ok _ => true
  | _ => false

def toOk {α : Type} : Outcome α → Option α
  | .ok a => some a
  | _ => none

end Outcome

/-- 2^64, the modulus of Go `uint64` arithmetic. -/
def M64 : Nat := 2 ^ 64

/-- Go `uint64` addition. -/
def add64 (a b : Nat) : Nat := (a + b) % M64

/-- Go `uint64` subtraction (two's-complement wrap) for operands below 2^64. -/
def sub64 (a b : Nat) : Nat := (a + (M64 - b % M64)) % M64

/-- Byte order injected by the caller (`binary.ByteOrder`). -/
inductive ByteOrder where
  | le
  | be
deriving DecidableEq, Repr

/-- Decode a byte list into an unsigned integer per the byte order. -/
def ByteOrder.decode : ByteOrder → List Nat → Nat
  | .le, bs => bs.foldr (fun b acc => b + 256 * acc) 0
  | .be, bs => bs.foldl (fun acc b => 256 * acc + b) 0

/-- Encode the low `n` bytes of `v` per the byte order
(`binary.ByteOrder.PutUint32/PutUint64`, which truncate `v` to `n` bytes). -/
def putUint (bo : ByteOrder) (n v : Nat) : List Nat :=
  match bo with
  | .le => (List.range n).map (fun i => v >>> (8 * i) % 256)
  | .be => (List.range n).map (fun i => v >>> (8 * (n - 1 - i)) % 256)

/-- Read `n` bytes at offset `off`, as `binary.Read` on a seekable byte
source: all-or-nothing, `none` models the EOF error on a short read. -/
def readUIntAt (bo : ByteOrder) (l : List Nat) (off n : Nat) : Option Nat :=
  if off + n ≤ l.length then some (bo.decode ((l.drop off).take n)) else none

/-- Go slice expression `l[a:b]` (panics, modelled by `none`, unless
`a ≤ b ≤ len(l)`; capacity is taken to equal length). -/
def sliceGo (l : List Nat) (a b : Nat) : Option (List Nat) :=
  if a ≤ b ∧ b ≤ l.length then some ((l.drop a).take (b - a)) else none

/-- Overwrite `p[i : i + xs.length]` with `xs` (the effect of Go `copy`
into a slice of `p`; callers establish the bounds). -/
def writeAt (p : List Nat) (i : Nat) (xs : List Nat) : List Nat :=
  p.take i ++ xs ++ p.drop (i + xs.length)

/-! ## Pointer-format codec

The codec lives in the package's type definitions, which are not part of
the sources under verification; every definition in this section is
modelled from the spec (§3 slot bit-layouts, §3 pointer-format table, §4.A
accessors).  All layouts are LSB-first. -/

/-- Modelled from the spec: pointer-format enumeration values (the
canonical `<mach-o/fixup-chains.h>` constants, §3 table order). -/
def DYLD_CHAINED_PTR_ARM64E : Nat := 1

/-- Modelled from the spec: canonical dyld constant. -/
def DYLD_CHAINED_PTR_64 : Nat := 2

/-- Modelled from the spec: canonical dyld constant. -/
def DYLD_CHAINED_PTR_32 : Nat := 3

/-- Modelled from the spec: canonical dyld constant. -/
def DYLD_CHAINED_PTR_32_CACHE : Nat := 4

/-- Modelled from the spec: canonical dyld constant. -/
def DYLD_CHAINED_PTR_32_FIRMWARE : Nat := 5

/-- Modelled from the spec: canonical dyld constant. -/
def DYLD_CHAINED_PTR_64_OFFSET : Nat := 6

/-- Modelled from the spec: canonical dyld constant. -/
def DYLD_CHAINED_PTR_ARM64E_KERNEL : Nat := 7

/-- Modelled from the spec: canonical dyld constant. -/
def DYLD_CHAINED_PTR_64_KERNEL_CACHE : Nat := 8

/-- Modelled from the spec: canonical dyld constant. -/
def DYLD_CHAINED_PTR_ARM64E_USERLAND : Nat := 9

/-- Modelled from the spec: canonical dyld constant. -/
def DYLD_CHAINED_PTR_ARM64E_FIRMWARE : Nat := 10

/-- Modelled from the spec: canonical dyld constant. -/
def DYLD_CHAINED_PTR_X86_64_KERNEL_CACHE : Nat := 11

/-- Modelled from the spec: canonical dyld constant. -/
def DYLD_CHAINED_PTR_ARM64E_USERLAND24 : Nat := 12

/-- Modelled from the spec: page-start sentinel `NONE = 0xFFFF`. -/
def DYLD_CHAINED_PTR_START_NONE : Nat := 0xFFFF

/-- Modelled from the spec: page-start flag `MULTI = 0x8000`. -/
def DYLD_CHAINED_PTR_START_MULTI : Nat := 0x8000

/-- Modelled from the spec: page-start flag `LAST = 0x4000`. -/
def DYLD_CHAINED_PTR_START_LAST : Nat := 0x4000

/-- Modelled from the spec: `stride(format)` per the §3 table
(8 for ARM64E/USERLAND/USERLAND24, 1 for X86_64_KERNEL_CACHE, else 4). -/
def stride (fmt : Nat) : Nat :=
  if fmt = DYLD_CHAINED_PTR_ARM64E ∨ fmt = DYLD_CHAINED_PTR_ARM64E_USERLAND ∨
     fmt = DYLD_CHAINED_PTR_ARM64E_USERLAND24 then 8
  else if fmt = DYLD_CHAINED_PTR_X86_64_KERNEL_CACHE then 1
  else if fmt = DYLD_CHAINED_PTR_64 ∨ fmt = DYLD_CHAINED_PTR_32 ∨
          fmt = DYLD_CHAINED_PTR_32_CACHE ∨ fmt = DYLD_CHAINED_PTR_32_FIRMWARE ∨
          fmt = DYLD_CHAINED_PTR_64_OFFSET ∨ fmt = DYLD_CHAINED_PTR_ARM64E_KERNEL ∨
          fmt = DYLD_CHAINED_PTR_64_KERNEL_CACHE ∨ fmt = DYLD_CHAINED_PTR_ARM64E_FIRMWARE then 4
  else 0

/-- Modelled from the spec: generic 32-bit layout `target:26|next:5|bind:1`;
`bind`-bit high selects bind. -/
def Generic32IsBind (w : Nat) : Bool := (w >>> 31) &&& 1 = 1

/-- Modelled from the spec: `next` field of the generic 32-bit layout. -/
def Generic32Next (w : Nat) : Nat := (w >>> 26) &&& 0x1F

/-- Modelled from the spec: generic 32 bind `ordinal:20` (low bits). -/
def dyldChainedPtr32BindOrdinal (w : Nat) : Nat := w &&& 0xFFFFF

/-- Modelled from the spec: generic 32 rebase `target:26` (low bits). -/
def dyldChainedPtr32RebaseTarget (w : Nat) : Nat := w &&& 0x3FFFFFF

/-- Modelled from the spec: generic 64-bit layout
`target:36|high8:8|reserved:7|next:12|bind:1`. -/
def Generic64IsBind (w : Nat) : Bool := (w >>> 63) &&& 1 = 1

/-- Modelled from the spec: `next` field of the generic 64-bit layout. -/
def Generic64Next (w : Nat) : Nat := (w >>> 51) &&& 0xFFF

/-- Modelled from the spec: generic 64 bind `ordinal:24` (low bits). -/
def dyldChainedPtr64BindOrdinal (w : Nat) : Nat := w &&& 0xFFFFFF

/-- Modelled from the spec: generic 64 rebase
`UnpackedTarget() = target | (high8 << 56)`. -/
def dyldChainedPtr64RebaseUnpackedTarget (w : Nat) : Nat :=
  (w &&& 0xFFFFFFFFF) ||| (((w >>> 36) &&& 0xFF) <<< 56)

/-- Modelled from the spec: ARM64E family, `bind` bit (bit 62). -/
def DcpArm64eIsBind (w : Nat) : Bool := (w >>> 62) &&& 1 = 1

/-- Modelled from the spec: ARM64E family, `auth` bit (bit 63). -/
def DcpArm64eIsAuth (w : Nat) : Bool := (w >>> 63) &&& 1 = 1

/-- Modelled from the spec: ARM64E family `next:11` at bits 51..61. -/
def DcpArm64eNext (w : Nat) : Nat := (w >>> 51) &&& 0x7FF

/-- Modelled from the spec: ARM64E bind `ordinal:16` (low bits). -/
def dcpArm64eBindOrdinal (w : Nat) : Nat := w &&& 0xFFFF

/-- Modelled from the spec: ARM64E auth bind `ordinal:16` (low bits). -/
def dcpArm64eAuthBindOrdinal (w : Nat) : Nat := w &&& 0xFFFF

/-- Modelled from the spec: ARM64E `…24` variants carry a 24-bit ordinal. -/
def dcpArm64eBind24Ordinal (w : Nat) : Nat := w &&& 0xFFFFFF

/-- Modelled from the spec: ARM64E auth bind 24 `ordinal:24` (low bits). -/
def dcpArm64eAuthBind24Ordinal (w : Nat) : Nat := w &&& 0xFFFFFF

/-- Modelled from the spec: ARM64E auth rebase `target:32` (low bits). -/
def dcpArm64eAuthRebaseTarget (w : Nat) : Nat := w &&& 0xFFFFFFFF

/-- Modelled from the spec: ARM64E (unauth) rebase `target:43|high8:8`,
`UnpackTarget() = target | (high8 << 43)` (spec §3 wording). -/
def dcpArm64eRebaseUnpackTarget (w : Nat) : Nat :=
  (w &&& 0x7FFFFFFFFFF) ||| (((w >>> 43) &&& 0xFF) <<< 43)

/-! ## Data model -/

/-- `DyldChainedFixupsHeader`: seven little/big-endian `uint32` fields. -/
structure DyldChainedFixupsHeader where
  fixupsVersion : Nat
  startsOffset : Nat
  importsOffset : Nat
  symbolsOffset : Nat
  importsCount : Nat
  importsFormat : Nat
  symbolsFormat : Nat
deriving DecidableEq, Repr

/-- `DyldChainedStartsInSegment` (fixed-size per-segment header; field
order and widths per the on-disk dyld struct: u32, u16, u16, u64, u32, u16). -/
structure DyldChainedStartsInSegment where
  size : Nat
  pageSize : Nat
  pointerFormat : Nat
  segmentOffset : Nat
  maxValidPointer : Nat
  pageCount : Nat
deriving DecidableEq, Repr

/-- Raw import-table record; shape selected by `imports_format`.
`basic` = `DyldChainedImport` (one u32), `addend` = `DyldChainedImportAddend`
(u32 + i32), `addend64` = `DyldChainedImportAddend64` (u64 + i64);
addends kept as raw unsigned words. -/
inductive RawImport where
  | basic (raw : Nat)
  | addend (raw addendBits : Nat)
  | addend64 (raw addendBits : Nat)
deriving DecidableEq, Repr

/-- Modelled from the spec: `name_offset` accessor of the three import
record shapes (bits 9..31 of the u32 shapes, bits 32..63 of the u64 shape). -/
def RawImport.nameOffset : RawImport → Nat
  | .basic raw => raw >>> 9
  | .addend raw _ => raw >>> 9
  | .addend64 raw _ => raw >>> 32

/-- `DcfImport`: an import record together with its resolved symbol name
(name kept as its byte list). -/
structure DcfImport where
  name : List Nat
  imp : RawImport
deriving DecidableEq, Repr

/-- The fixup records emitted by the chain walker; each carries the raw
slot word (`Pointer`) and the absolute image offset (`Fixup`), binds also
their resolved import name. One constructor per record type in the source. -/
inductive Fixup where
  | rebase32 (pointer fixup : Nat)
  | cacheRebase32 (pointer fixup : Nat)
  | firmwareRebase32 (pointer fixup : Nat)
  | bind32 (pointer fixup : Nat) (imp : List Nat)
  | rebase64 (pointer fixup : Nat)
  | rebaseOffset64 (pointer fixup : Nat)
  | kernelCacheRebase64 (pointer fixup : Nat)
  | bind64 (pointer fixup : Nat) (imp : List Nat)
  | arm64eRebase (pointer fixup : Nat)
  | arm64eBind (pointer fixup : Nat) (imp : List Nat)
  | arm64eAuthRebase (pointer fixup : Nat)
  | arm64eAuthBind (pointer fixup : Nat) (imp : List Nat)
  | arm64eRebase24 (pointer fixup : Nat)
  | arm64eBind24 (pointer fixup : Nat) (imp : List Nat)
  | arm64eAuthRebase24 (pointer fixup : Nat)
  | arm64eAuthBind24 (pointer fixup : Nat) (imp : List Nat)
deriving DecidableEq, Repr

/-- The `Fixup` field: absolute image offset of the slot. -/
def Fixup.loc : Fixup → Nat
  | .rebase32 _ f => f
  | .cacheRebase32 _ f => f
  | .firmwareRebase32 _ f => f
  | .bind32 _ f _ => f
  | .rebase64 _ f => f
  | .rebaseOffset64 _ f => f
  | .kernelCacheRebase64 _ f => f
  | .bind64 _ f _ => f
  | .arm64eRebase _ f => f
  | .arm64eBind _ f _ => f
  | .arm64eAuthRebase _ f => f
  | .arm64eAuthBind _ f _ => f
  | .arm64eRebase24 _ f => f
  | .arm64eBind24 _ f _ => f
  | .arm64eAuthRebase24 _ f => f
  | .arm64eAuthBind24 _ f _ => f

/-- The `Pointer` field: raw slot word. -/
def Fixup.raw : Fixup → Nat
  | .rebase32 p _ => p
  | .cacheRebase32 p _ => p
  | .firmwareRebase32 p _ => p
  | .bind32 p _ _ => p
  | .rebase64 p _ => p
  | .rebaseOffset64 p _ => p
  | .kernelCacheRebase64 p _ => p
  | .bind64 p _ _ => p
  | .arm64eRebase p _ => p
  | .arm64eBind p _ _ => p
  | .arm64eAuthRebase p _ => p
  | .arm64eAuthBind p _ _ => p
  | .arm64eRebase24 p _ => p
  | .arm64eBind24 p _ _ => p
  | .arm64eAuthRebase24 p _ => p
  | .arm64eAuthBind24 p _ _ => p

/-- `DyldChainedStarts`: the per-segment starts header, the page-starts
array (`none` models the nil slice of a segment whose `seg_info_offset`
was zero), and the fixups collected by the walk. -/
structure DyldChainedStarts where
  seg : DyldChainedStartsInSegment
  pageStarts : Option (List Nat)
  fixups : List Fixup
deriving DecidableEq, Repr

/-- The fully parsed `DyldChainedFixups` aggregate (the fields `Parse`
returns: decoded header, per-segment starts with fixups, resolved imports). -/
structure DCF where
  header : DyldChainedFixupsHeader
  starts : List DyldChainedStarts
  imports : List DcfImport
deriving DecidableEq, Repr

/-! ## Header and starts parser (`ParseStarts`) -/

/-- Decode the 28-byte fixups header at offset 0 of the payload
(`binary.Read(dcf.r, dcf.bo, &dcf.DyldChainedFixupsHeader)`). -/
def decodeHeader (bo : ByteOrder) (payload : List Nat) : Option DyldChainedFixupsHeader :=
  if 28 ≤ payload.length then
    some ⟨bo.decode ((payload.drop 0).take 4), bo.decode ((payload.drop 4).take 4),
          bo.decode ((payload.drop 8).take 4), bo.decode ((payload.drop 12).take 4),
          bo.decode ((payload.drop 16).take 4), bo.decode ((payload.drop 20).take 4),
          bo.decode ((payload.drop 24).take 4)⟩
  else none

/-- Decode one `DyldChainedStarts` at `startsOffset + segInfoOffset`
(zero offsets yield the zero value with a nil page-starts slice). -/
def decodeSegStarts (bo : ByteOrder) (payload : List Nat) (startsOffset segInfoOffset : Nat) :
    Outcome DyldChainedStarts :=
  if segInfoOffset = 0 then .ok ⟨⟨0, 0, 0, 0, 0, 0⟩, none, []⟩
  else
    let base := startsOffset + segInfoOffset
    if base + 22 ≤ payload.length then
      let seg : DyldChainedStartsInSegment :=
        ⟨bo.decode ((payload.drop base).take 4),
         bo.decode ((payload.drop (base + 4)).take 2),
         bo.decode ((payload.drop (base + 6)).take 2),
         bo.decode ((payload.drop (base + 8)).take 8),
         bo.decode ((payload.drop (base + 16)).take 4),
         bo.decode ((payload.drop (base + 20)).take 2)⟩
      if base + 22 + 2 * seg.pageCount ≤ payload.length then
        .ok ⟨seg, some ((List.range seg.pageCount).map
               (fun i => bo.decode ((payload.drop (base + 22 + 2 * i)).take 2))), []⟩
      else .fail .truncatedRead
    else .fail .truncatedRead

/-- Sequence a list of segment decodes, aborting on the first failure. -/
def decodeAllSegStarts (bo : ByteOrder) (payload : List Nat) (startsOffset : Nat) :
    List Nat → Outcome (List DyldChainedStarts)
  | [] => .ok []
  | off :: rest =>
    match decodeSegStarts bo payload startsOffset off with
    | .ok s => (decodeAllSegStarts bo payload startsOffset rest).map (s :: ·)
    | .fail e => .fail e
    | .crash p => .crash p
    | .fuelOut => .fuelOut

/-- `ParseStarts`: read the header, seek to `starts_offset`, read
`seg_count`, the `seg_info_offsets` array, and each segment's starts. -/
def parseStarts (bo : ByteOrder) (payload : List Nat) :
    Outcome (DyldChainedFixupsHeader × List DyldChainedStarts) :=
  match decodeHeader bo payload with
  | none => .fail .truncatedRead
  | some h =>
    match readUIntAt bo payload h.startsOffset 4 with
    | none => .fail .truncatedRead
    | some segCount =>
      if h.startsOffset + 4 + 4 * segCount ≤ payload.length then
        let offs := (List.range segCount).map
          (fun i => bo.decode ((payload.drop (h.startsOffset + 4 + 4 * i)).take 4))
        (decodeAllSegStarts bo payload h.startsOffset offs).map (fun ss => (h, ss))
      else .fail .truncatedRead

/-! ## Import-table parser (`parseImports`) -/

/-- Read the raw import records (`binary.Read` of the whole array, which
either succeeds completely or fails with EOF); an `imports_format` outside
{1, 2, 3} matches no switch case and leaves the records empty. -/
def readRawImports (bo : ByteOrder) (payload : List Nat)
    (importsOffset importsCount importsFormat : Nat) : Outcome (List RawImport) :=
  if importsFormat = 1 then
    if importsOffset + 4 * importsCount ≤ payload.length then
      .ok ((List.range importsCount).map
        (fun i => .basic (bo.decode ((payload.drop (importsOffset + 4 * i)).take 4))))
    else .fail .truncatedRead
  else if importsFormat = 2 then
    if importsOffset + 8 * importsCount ≤ payload.length then
      .ok ((List.range importsCount).map
        (fun i => .addend (bo.decode ((payload.drop (importsOffset + 8 * i)).take 4))
                          (bo.decode ((payload.drop (importsOffset + 8 * i + 4)).take 4))))
    else .fail .truncatedRead
  else if importsFormat = 3 then
    if importsOffset + 16 * importsCount ≤ payload.length then
      .ok ((List.range importsCount).map
        (fun i => .addend64 (bo.decode ((payload.drop (importsOffset + 16 * i)).take 8))
                            (bo.decode ((payload.drop (importsOffset + 16 * i + 8)).take 8))))
    else .fail .truncatedRead
  else .ok []

/-- Resolve each import's name from the symbol pool: a NUL-terminated
string read at `name_offset`; a pool tail with no NUL byte is the
unterminated-string error (reported at `symbols_offset + name_offset`),
and the imports resolved so far are kept. -/
def resolveImports (symbolsOffset : Nat) (pool : List Nat) :
    List RawImport → List DcfImport × Option GoErr
  | [] => ([], none)
  | i :: rest =>
    let tail := pool.drop i.nameOffset
    if tail.contains 0 then
      let (acc, e) := resolveImports symbolsOffset pool rest
      (⟨tail.takeWhile (fun b => b ≠ 0), i⟩ :: acc, e)
    else ([], some (.unterminatedString (symbolsOffset + i.nameOffset)))

/-- `parseImports`: read the raw records, then resolve names from the
symbol pool (a section reader over the payload from `symbols_offset`).
Returns the imports populated so far together with the error, because the
caller (`Parse`) discards the error and keeps using the partial imports. -/
def parseImports (bo : ByteOrder) (payload : List Nat)
    (importsOffset importsCount importsFormat symbolsOffset : Nat) :
    List DcfImport × Option GoErr :=
  match readRawImports bo payload importsOffset importsCount importsFormat with
  | .ok raws => resolveImports symbolsOffset (payload.drop symbolsOffset) raws
  | .fail e => ([], some e)
  | _ => ([], some .truncatedRead)

/-! ## Chain walker (`walkDcFixupChain`) -/

/-- One iteration of the walk loop at `loc`: read a slot word (width per
format), classify and build the fixup record exactly as the source's
switch does (bind records index `Imports` with the slot ordinal, which
panics when out of range), and return the record with the decoded `next`
field. The four ARM64E cases (`ARM64E`, `ARM64E_KERNEL`,
`ARM64E_FIRMWARE`, `ARM64E_USERLAND`) have byte-identical bodies in the
source and share `arm64eStep` here. -/
def arm64eStep (imps : List DcfImport) (w loc : Nat) : Outcome (Fixup × Nat) :=
  if !DcpArm64eIsBind w && !DcpArm64eIsAuth w then
    .ok (.arm64eRebase w loc, DcpArm64eNext w)
  else if DcpArm64eIsBind w && !DcpArm64eIsAuth w then
    match imps.get? (dcpArm64eBindOrdinal w) with
    | none => .crash .indexOutOfRange
    | some di => .ok (.arm64eBind w loc di.name, DcpArm64eNext w)
  else if !DcpArm64eIsBind w && DcpArm64eIsAuth w then
    .ok (.arm64eAuthRebase w loc, DcpArm64eNext w)
  else
    match imps.get? (dcpArm64eAuthBindOrdinal w) with
    | none => .crash .indexOutOfRange
    | some di => .ok (.arm64eAuthBind w loc di.name, DcpArm64eNext w)

/-- The `ARM64E_USERLAND24` classification (its own branch order in the
source: rebase24, auth-bind24, auth-rebase24, bind24). -/
def arm64e24Step (imps : List DcfImport) (w loc : Nat) : Outcome (Fixup × Nat) :=
  if !DcpArm64eIsBind w && !DcpArm64eIsAuth w then
    .ok (.arm64eRebase24 w loc, DcpArm64eNext w)
  else if DcpArm64eIsBind w && DcpArm64eIsAuth w then
    match imps.get? (dcpArm64eAuthBind24Ordinal w) with
    | none => .crash .indexOutOfRange
    | some di => .ok (.arm64eAuthBind24 w loc di.name, DcpArm64eNext w)
  else if !DcpArm64eIsBind w && DcpArm64eIsAuth w then
    .ok (.arm64eAuthRebase24 w loc, DcpArm64eNext w)
  else
    match imps.get? (dcpArm64eBind24Ordinal w) with
    | none => .crash .indexOutOfRange
    | some di => .ok (.arm64eBind24 w loc di.name, DcpArm64eNext w)

/-- Dispatch one slot read at `loc` on the pointer format (the body of the
source's `switch pointerFormat`); an unknown format is the source's
`unknown pointer format` error. -/
def slotStep (bo : ByteOrder) (img : List Nat) (imps : List DcfImport)
    (fmt loc : Nat) : Outcome (Fixup × Nat) :=
  if fmt = DYLD_CHAINED_PTR_32 then
    match readUIntAt bo img loc 4 with
    | none => .fail .truncatedRead
    | some w =>
      if Generic32IsBind w then
        match imps.get? (dyldChainedPtr32BindOrdinal w) with
        | none => .crash .indexOutOfRange
        | some di => .ok (.bind32 w loc di.name, Generic32Next w)
      else .ok (.rebase32 w loc, Generic32Next w)
  else if fmt = DYLD_CHAINED_PTR_32_CACHE then
    match readUIntAt bo img loc 4 with
    | none => .fail .truncatedRead
    | some w => .ok (.cacheRebase32 w loc, Generic32Next w)
  else if fmt = DYLD_CHAINED_PTR_32_FIRMWARE then
    match readUIntAt bo img loc 4 with
    | none => .fail .truncatedRead
    | some w => .ok (.firmwareRebase32 w loc, Generic32Next w)
  else if fmt = DYLD_CHAINED_PTR_64 then
    match readUIntAt bo img loc 8 with
    | none => .fail .truncatedRead
    | some w =>
      if Generic64IsBind w then
        match imps.get? (dyldChainedPtr64BindOrdinal w) with
        | none => .crash .indexOutOfRange
        | some di => .ok (.bind64 w loc di.name, Generic64Next w)
      else .ok (.rebase64 w loc, Generic64Next w)
  else if fmt = DYLD_CHAINED_PTR_64_OFFSET then
    match readUIntAt bo img loc 8 with
    | none => .fail .truncatedRead
    | some w => .ok (.rebaseOffset64 w loc, Generic64Next w)
  else if fmt = DYLD_CHAINED_PTR_64_KERNEL_CACHE then
    match readUIntAt bo img loc 8 with
    | none => .fail .truncatedRead
    | some w => .ok (.kernelCacheRebase64 w loc, Generic64Next w)
  else if fmt = DYLD_CHAINED_PTR_X86_64_KERNEL_CACHE then
    match readUIntAt bo img loc 8 with
    | none => .fail .truncatedRead
    | some w => .ok (.kernelCacheRebase64 w loc, Generic64Next w)
  else if fmt = DYLD_CHAINED_PTR_ARM64E_KERNEL then
    match readUIntAt bo img loc 8 with
    | none => .fail .truncatedRead
    | some w => arm64eStep imps w loc
  else if fmt = DYLD_CHAINED_PTR_ARM64E_FIRMWARE then
    match readUIntAt bo img loc 8 with
    | none => .fail .truncatedRead
    | some w => arm64eStep imps w loc
  else if fmt = DYLD_CHAINED_PTR_ARM64E then
    match readUIntAt bo img loc 8 with
    | none => .fail .truncatedRead
    | some w => arm64eStep imps w loc
  else if fmt = DYLD_CHAINED_PTR_ARM64E_USERLAND then
    match readUIntAt bo img loc 8 with
    | none => .fail .truncatedRead
    | some w => arm64eStep imps w loc
  else if fmt = DYLD_CHAINED_PTR_ARM64E_USERLAND24 then
    match readUIntAt bo img loc 8 with
    | none => .fail .truncatedRead
    | some w => arm64e24Step imps w loc
  else .fail (.unknownPointerFormat fmt)

/-- The chain-walk loop: emit a record at every visited location, stop
when the decoded `next` field is zero, otherwise advance by
`next * stride(format)` (Go `uint64` addition). -/
def walkChain (bo : ByteOrder) (img : List Nat) (imps : List DcfImport) (fmt : Nat) :
    Nat → Nat → Outcome (List Fixup)
  | 0, _ => .fuelOut
  | fuel + 1, loc =>
    match slotStep bo img imps fmt loc with
    | .ok (rec, n) =>
      if n = 0 then .ok [rec]
      else (walkChain bo img imps fmt fuel (add64 loc (n * stride fmt))).map (rec :: ·)
    | .fail e => .fail e
    | .crash p => .crash p
    | .fuelOut => .fuelOut

/-! ## Page-start handling (`Parse`) -/

/-- The MULTI overflow loop: starting at some index of `page_starts`
(given here as the list suffix from that index), walk a chain at each
entry's offset (entry with the LAST bit cleared), stopping after the first
entry that has the LAST bit set; running past the end of the array is the
Go index-out-of-range panic. -/
def multiWalk (w : Nat → Outcome (List Fixup)) : List Nat → Outcome (List Fixup)
  | [] => .crash .indexOutOfRange
  | e :: rest =>
    match w (e &&& 0xBFFF) with
    | .ok fs =>
      if e &&& DYLD_CHAINED_PTR_START_LAST ≠ 0 then .ok fs
      else (multiWalk w rest).map (fs ++ ·)
    | .fail er => .fail er
    | .crash p => .crash p
    | .fuelOut => .fuelOut

/-- Handling of one page-start value `raw` (the body of `Parse`'s page
loop): `NONE` pages are skipped, a MULTI value runs the overflow loop from
index `raw & 0x7FFF` of the same `page_starts` array, otherwise a single
chain is walked at in-page offset `raw`. -/
def processPage (w : Nat → Outcome (List Fixup)) (ps : List Nat) (raw : Nat) :
    Outcome (List Fixup) :=
  if raw = DYLD_CHAINED_PTR_START_NONE then .ok []
  else if raw &&& DYLD_CHAINED_PTR_START_MULTI ≠ 0 then
    multiWalk w (ps.drop (raw &&& 0x7FFF))
  else w raw

/-- Walk every page of one segment: page indices `0 ≤ i < page_count`,
`page_starts[i]` fetched with the Go panic on a short array, chain heads
at `segment_offset + i * page_size + offset_in_page` (uint64 arithmetic). -/
def pagesLoop (bo : ByteOrder) (img : List Nat) (imps : List DcfImport)
    (seg : DyldChainedStartsInSegment) (fuel : Nat) (ps : List Nat) :
    List Nat → Outcome (List Fixup)
  | [] => .ok []
  | i :: rest =>
    match ps.get? i with
    | none => .crash .indexOutOfRange
    | some raw =>
      match processPage
          (fun off => walkChain bo img imps seg.pointerFormat fuel
            (add64 (add64 seg.segmentOffset (i * seg.pageSize % M64)) off))
          ps raw with
      | .ok fs => (pagesLoop bo img imps seg fuel ps rest).map (fs ++ ·)
      | .fail e => .fail e
      | .crash p => .crash p
      | .fuelOut => .fuelOut

/-- All fixups of one segment. -/
def segmentWalk (bo : ByteOrder) (img : List Nat) (imps : List DcfImport)
    (seg : DyldChainedStartsInSegment) (fuel : Nat) (ps : List Nat) :
    Outcome (List Fixup) :=
  pagesLoop bo img imps seg fuel ps (List.range seg.pageCount)

/-- The segment loop of `Parse`: segments with a nil `PageStarts` are
skipped, others get their fixups appended. -/
def segsLoop (bo : ByteOrder) (img : List Nat) (imps : List DcfImport) (fuel : Nat) :
    List DyldChainedStarts → Outcome (List DyldChainedStarts)
  | [] => .ok []
  | s :: rest =>
    match s.pageStarts with
    | none => (segsLoop bo img imps fuel rest).map (s :: ·)
    | some ps =>
      match segmentWalk bo img imps s.seg fuel ps with
      | .ok fs => (segsLoop bo img imps fuel rest).map ({ s with fixups := s.fixups ++ fs } :: ·)
      | .fail e => .fail e
      | .crash p => .crash p
      | .fuelOut => .fuelOut

/-- The body of `Parse` after the header and starts are available: call
`parseImports` — discarding its returned error, as the source's line
`dcf.parseImports()` does — then walk every segment. -/
def parseBody (bo : ByteOrder) (importsOffset importsCount importsFormat symbolsOffset : Nat)
    (starts : List DyldChainedStarts) (payload img : List Nat) :
    Outcome (List DyldChainedStarts × List DcfImport) :=
  let imps := (parseImports bo payload importsOffset importsCount importsFormat symbolsOffset).1
  (segsLoop bo img imps (img.length + 2) starts).map (fun ss => (ss, imps))

/-- `Parse` given an already decoded header (the header is stored in the
aggregate and consulted only through the four fields passed to
`parseBody`; `symbols_format` in particular is never read). -/
def parseWithHeader (bo : ByteOrder) (h : DyldChainedFixupsHeader)
    (starts : List DyldChainedStarts) (payload img : List Nat) : Outcome DCF :=
  (parseBody bo h.importsOffset h.importsCount h.importsFormat h.symbolsOffset
      starts payload img).map (fun pr => ⟨h, pr.1, pr.2⟩)

/-- `Parse` on a fresh aggregate: `ParseStarts`, then imports and chain
walking. -/
def parseFull (bo : ByteOrder) (payload img : List Nat) : Outcome DCF :=
  match parseStarts bo payload with
  | .ok (h, starts) => parseWithHeader bo h starts payload img
  | .fail e => .fail e
  | .crash p => .crash p
  | .fuelOut => .fuelOut

/-! ## Query surface (`GetImportForPointer`, `RebasePointer`) -/

/-- `GetImportForPointer`: best-effort scan over the segments; only the
`PTR_32`, `PTR_64` and `ARM64E` formats are inspected, a bind ordinal
within range returns that import, everything else falls through to the
`not a bind pointer` error. -/
def getImportForPointer (starts : List DyldChainedStarts) (imports : List DcfImport)
    (ptr : Nat) : Outcome DcfImport :=
  match starts with
  | [] => .fail .notABindPointer
  | s :: rest =>
    if s.seg.pageCount = 0 then getImportForPointer rest imports ptr
    else if s.seg.pointerFormat = DYLD_CHAINED_PTR_32 then
      if Generic32IsBind (ptr % 2 ^ 32) then
        match imports.get? (dyldChainedPtr32BindOrdinal (ptr % 2 ^ 32)) with
        | some di => .ok di
        | none => getImportForPointer rest imports ptr
      else getImportForPointer rest imports ptr
    else if s.seg.pointerFormat = DYLD_CHAINED_PTR_64 then
      if Generic64IsBind ptr then
        match imports.get? (dyldChainedPtr64BindOrdinal ptr) with
        | some di => .ok di
        | none => getImportForPointer rest imports ptr
      else getImportForPointer rest imports ptr
    else if s.seg.pointerFormat = DYLD_CHAINED_PTR_ARM64E then
      if DcpArm64eIsBind ptr then
        match imports.get? (if DcpArm64eIsAuth ptr then dcpArm64eAuthBindOrdinal ptr
                            else dcpArm64eBindOrdinal ptr) with
        | some di => .ok di
        | none => getImportForPointer rest imports ptr
      else getImportForPointer rest imports ptr
    else getImportForPointer rest imports ptr

/-- `RebasePointer`: same scan; the first segment that classifies the
pointer as a rebase determines the result, otherwise the pointer is
returned unchanged. -/
def rebasePointer (starts : List DyldChainedStarts) (pla ptr : Nat) : Nat :=
  match starts with
  | [] => ptr
  | s :: rest =>
    if s.seg.pageCount = 0 then rebasePointer rest pla ptr
    else if s.seg.pointerFormat = DYLD_CHAINED_PTR_32 then
      if !Generic32IsBind (ptr % 2 ^ 32) then dyldChainedPtr32RebaseTarget (ptr % 2 ^ 32)
      else rebasePointer rest pla ptr
    else if s.seg.pointerFormat = DYLD_CHAINED_PTR_64 then
      if !Generic64IsBind ptr then dyldChainedPtr64RebaseUnpackedTarget ptr
      else rebasePointer rest pla ptr
    else if s.seg.pointerFormat = DYLD_CHAINED_PTR_ARM64E then
      if !DcpArm64eIsBind ptr then
        if DcpArm64eIsAuth ptr then add64 (dcpArm64eAuthRebaseTarget ptr) pla
        else dcpArm64eRebaseUnpackTarget ptr
      else rebasePointer rest pla ptr
    else rebasePointer rest pla ptr

/-- Whether one segment's case of `RebasePointer`'s switch returns (rather
than falling through to the next segment). -/
def decidesRebase (s : DyldChainedStarts) (ptr : Nat) : Bool :=
  s.seg.pageCount ≠ 0 &&
    ((s.seg.pointerFormat = DYLD_CHAINED_PTR_32 && !Generic32IsBind (ptr % 2 ^ 32)) ||
     (s.seg.pointerFormat = DYLD_CHAINED_PTR_64 && !Generic64IsBind ptr) ||
     (s.seg.pointerFormat = DYLD_CHAINED_PTR_ARM64E && !DcpArm64eIsBind ptr))

/-! ## Read-through overlay (`LazyRebasedReader`) -/

/-- One entry of the overlay's rebase index: slot file offset (`Offset()`),
raw slot word (`Raw()`), and the resolution function (`Resolve(base)`). -/
structure RebaseRec where
  off : Nat
  raw : Nat
  resolve : Nat → Nat

/-- `patchReadBytes`' handling of one recorded rebase against the buffer
`p` read at offset `off`: the skip test, the clamping of
`dstOff`/`srcOff`/`dstSize` exactly as written in the source (including
its use of `rOff + dstSize` in the tail-clamp test), the byte comparison
against the encoded raw word (mismatch is an error; an out-of-range slice
of `p` is the Go panic), and the overwrite with the encoded resolved
value. -/
def patchStep (bo : ByteOrder) (ps base off : Nat) (r : RebaseRec) (p : List Nat) :
    Outcome (List Nat) :=
  let mx := add64 off p.length
  if add64 r.off ps < off ∨ r.off > mx then .ok p
  else
    let dstOff := if r.off < off then 0 else sub64 r.off off
    let srcOff := if r.off < off then sub64 off r.off else 0
    let dstSize0 := if r.off < off then sub64 ps (sub64 off r.off) else ps
    let dstSize := if add64 r.off dstSize0 > mx
                   then sub64 dstSize0 (sub64 (add64 r.off dstSize0) mx)
                   else dstSize0
    let buf1 := putUint bo ps r.raw
    match sliceGo buf1 srcOff (srcOff + dstSize), sliceGo p dstOff (dstOff + dstSize) with
    | some bs, some ds =>
      if bs ≠ ds then .fail (.overlayMismatch r.off)
      else
        let buf2 := putUint bo ps (r.resolve base)
        .ok (writeAt p dstOff ((buf2.drop srcOff).take dstSize))
    | _, _ => .crash .sliceOutOfRange

/-- `patchReadBytes`: fold the per-rebase patch over the recorded rebases
(the Go map iteration, taken here in list order), aborting on the first
error or panic. -/
def patchReadBytes (bo : ByteOrder) (rebases : List RebaseRec) (ps base : Nat)
    (p : List Nat) (off : Nat) : Outcome (List Nat) :=
  match rebases with
  | [] => .ok p
  | r :: rest =>
    match patchStep bo ps base off r p with
    | .ok p2 => patchReadBytes bo rest ps base p2 off
    | .fail e => .fail e
    | .crash q => .crash q
    | .fuelOut => .fuelOut

/-- `LazyRebasedReader.ReadAt` after initialisation: delegate to the
underlying reader (whose returned bytes are the `p` argument here) and
patch them. -/
def lrrReadAt (bo : ByteOrder) (rebases : List RebaseRec) (ps base : Nat)
    (underlying : List Nat) (off : Nat) : Outcome (List Nat) :=
  patchReadBytes bo rebases ps base underlying off

/-! ## Statement helpers -/

/-- The `next` field decode used by the walk for a given pointer format
(the per-case `Generic32Next`/`Generic64Next`/`DcpArm64eNext` calls). -/
def nextOf (fmt w : Nat) : Nat :=
  match fmt with
  | 3 | 4 | 5 => Generic32Next w
  | 2 | 6 | 8 | 11 => Generic64Next w
  | 1 | 7 | 9 | 10 | 12 => DcpArm64eNext w
  | _ => 0

/-- Specification-side sequential runner: walk one chain per listed
in-page offset, in order, concatenating the emitted fixups (used to state
what the MULTI overflow loop amounts to). -/
def walkAll (w : Nat → Outcome (List Fixup)) : List Nat → Outcome (List Fixup)
  | [] => .ok []
  | o :: rest =>
    match w o with
    | .ok fs => (walkAll w rest).map (fs ++ ·)
    | .fail e => .fail e
    | .crash p => .crash p
    | .fuelOut => .fuelOut

/-- All fixup locations of a parsed aggregate, in emission order. -/
def allFixupLocs (d : DCF) : List Nat :=
  (d.starts.map (fun s => s.fixups.map Fixup.loc)).flatten

/-! ## Concrete inputs for the claims -/

/-- Little-endian u16 bytes. -/
def u16le (v : Nat) : List Nat := putUint .le 2 v

/-- Little-endian u32 bytes. -/
def u32le (v : Nat) : List Nat := putUint .le 4 v

/-- Little-endian u64 bytes. -/
def u64le (v : Nat) : List Nat := putUint .le 8 v

/-- Payload with three imports (`a`, `b`, `c`) and one PTR_64 segment
whose single page has its chain at in-page offset 0.
Layout: header at 0 (starts 28, imports 60, symbols 72, count 3,
format `DC_IMPORT`), seg-count 1 at 28, seg-info offset 8 at 32, segment
starts at 36 (size 0x4000, page size 0x4000, format PTR_64, segment
offset 0, page count 1), page starts `[0]` at 58, import records at 60
(name offsets 0, 2, 4), symbol pool at 72. -/
def payloadOrd : List Nat :=
  u32le 0 ++ u32le 28 ++ u32le 60 ++ u32le 72 ++ u32le 3 ++ u32le 1 ++ u32le 0 ++
  u32le 1 ++ u32le 8 ++
  u32le 0x4000 ++ u16le 0x4000 ++ u16le 2 ++ u64le 0 ++ u32le 0 ++ u16le 1 ++
  u16le 0 ++
  u32le 0 ++ u32le 1024 ++ u32le 2048 ++
  [97, 0, 98, 0, 99, 0]

/-- Image whose slot at offset 0 is a PTR_64 bind with ordinal 5 and
next 0 (word `2^63 + 5`). -/
def imageOrd : List Nat := u64le (2 ^ 63 + 5)

/-- Payload with one PTR_64 segment of size 8, page size 0x4000, one
page, chain head at in-page offset 2 (and no imports). -/
def payloadEsc : List Nat :=
  u32le 0 ++ u32le 28 ++ u32le 60 ++ u32le 60 ++ u32le 0 ++ u32le 1 ++ u32le 0 ++
  u32le 1 ++ u32le 8 ++
  u32le 8 ++ u16le 0x4000 ++ u16le 2 ++ u64le 0 ++ u32le 0 ++ u16le 1 ++
  u16le 2

/-- Image for `payloadEsc`: at offset 2 a PTR_64 rebase word with
`next = 2` (advance 8 bytes), at offset 10 a terminal rebase word. -/
def imageEsc : List Nat := [0, 0] ++ u64le (2 <<< 51) ++ u64le 0

/-- Payload whose single import's symbol string (at pool offset 0) has no
NUL terminator before the end of the payload: header at 0 (starts 28,
imports 32, symbols 36, count 1, format `DC_IMPORT`), seg-count 0 at 28,
one import record at 32, and the one-byte pool `"a"` at 36. -/
def payloadNoNul : List Nat :=
  u32le 0 ++ u32le 28 ++ u32le 32 ++ u32le 36 ++ u32le 1 ++ u32le 1 ++ u32le 0 ++
  u32le 0 ++ u32le 0 ++ [97]

/-- Payload whose header declares `symbols_format = 1` (zlib-compressed
pool), with no segments and no imports. -/
def payloadZlib : List Nat :=
  u32le 0 ++ u32le 28 ++ u32le 32 ++ u32le 32 ++ u32le 0 ++ u32le 1 ++ u32le 1 ++
  u32le 0

/-- A 12-byte image holding a two-slot PTR_64 chain starting at offset 0:
first word has `next = 1`, the word read at offset 4 decodes with
`next = 0`. -/
def imageChain : List Nat := u64le (1 <<< 51) ++ [0, 0, 0, 0]

/-- The ARM64E auth-rebase slot word of spec scenario S5:
`auth = 1, bind = 0, next = 0, key = 2, addr_div = 1, diversity = 0x1234,
target = 0x4000`. -/
def ptrS5 : Nat := 2 ^ 63 + 2 * 2 ^ 49 + 2 ^ 48 + 0x1234 * 2 ^ 32 + 0x4000

/-- A single parsed segment of format ARM64E with one page. -/
def segArm64e : DyldChainedStarts := ⟨⟨0x4000, 0x4000, 1, 0, 0, 1⟩, none, []⟩

/-- The fixups that walking `imageChain` from offset 0 produces. -/
def chainFixups : List Fixup := [.rebase64 (1 <<< 51) 0, .rebase64 524288 4]

/-- Page starts of spec scenario S4: entry 0 is MULTI pointing at index 2,
entry 2 has the LAST bit set. -/
def psMulti : List Nat := [0x8002, 0x0010, 0x4020, 0x0030]

/-- A 36-byte all-zero image (a PTR_32 chain head at offset 0x20 reads a
terminal rebase word there). -/
def img32 : List Nat := List.replicate 36 0

/-- A parsed segment whose pointer format is PTR_64_OFFSET (unhandled by
the pointer queries), with one page. -/
def segOffsetFmt : DyldChainedStarts := ⟨⟨0, 0, 6, 0, 0, 1⟩, none, []⟩

/-! ## Shared lemmas about the chain walk -/

lemma arm64eStep_ok {imps : List DcfImport} {w loc : Nat} {rec : Fixup} {n : Nat}
    (h : arm64eStep imps w loc = .ok (rec, n)) :
    rec.loc = loc ∧ rec.raw = w ∧ n = DcpArm64eNext w := by
  unfold arm64eStep at h
  repeat' split at h
  all_goals try exact Outcome.noConfusion h
  all_goals injection h with h2
  all_goals cases h2
  all_goals exact ⟨rfl, rfl, rfl⟩

lemma arm64e24Step_ok {imps : List DcfImport} {w loc : Nat} {rec : Fixup} {n : Nat}
    (h : arm64e24Step imps w loc = .ok (rec, n)) :
    rec.loc = loc ∧ rec.raw = w ∧ n = DcpArm64eNext w := by
  unfold arm64e24Step at h
  repeat' split at h
  all_goals try exact Outcome.noConfusion h
  all_goals injection h with h2
  all_goals cases h2
  all_goals exact ⟨rfl, rfl, rfl⟩

lemma slotStep_ok {bo : ByteOrder} {img : List Nat} {imps : List DcfImport}
    {fmt loc : Nat} {rec : Fixup} {n : Nat}
    (h : slotStep bo img imps fmt loc = .ok (rec, n)) :
    rec.loc = loc ∧ n = nextOf fmt rec.raw := by
  unfold slotStep at h
  by_cases h1 : fmt = DYLD_CHAINED_PTR_32
  · rw [if_pos h1] at h
    repeat' split at h
    all_goals try exact Outcome.noConfusion h
    all_goals injection h with h2
    all_goals cases h2
    all_goals subst h1
    all_goals exact ⟨rfl, rfl⟩
  · rw [if_neg h1] at h
    by_cases h2 : fmt = DYLD_CHAINED_PTR_32_CACHE
    · rw [if_pos h2] at h
      repeat' split at h
      all_goals try exact Outcome.noConfusion h
      all_goals injection h with hh
      all_goals cases hh
      all_goals subst h2
      all_goals exact ⟨rfl, rfl⟩
    · rw [if_neg h2] at h
      by_cases h3 : fmt = DYLD_CHAINED_PTR_32_FIRMWARE
      · rw [if_pos h3] at h
        repeat' split at h
        all_goals try exact Outcome.noConfusion h
        all_goals injection h with hh
        all_goals cases hh
        all_goals subst h3
        all_goals exact ⟨rfl, rfl⟩
      · rw [if_neg h3] at h
        by_cases h4 : fmt = DYLD_CHAINED_PTR_64
        · rw [if_pos h4] at h
          repeat' split at h
          all_goals try exact Outcome.noConfusion h
          all_goals injection h with hh
          all_goals cases hh
          all_goals subst h4
          all_goals exact ⟨rfl, rfl⟩
        · rw [if_neg h4] at h
          by_cases h5 : fmt = DYLD_CHAINED_PTR_64_OFFSET
          · rw [if_pos h5] at h
            repeat' split at h
            all_goals try exact Outcome.noConfusion h
            all_goals injection h with hh
            all_goals cases hh
            all_goals subst h5
            all_goals exact ⟨rfl, rfl⟩
          · rw [if_neg h5] at h
            by_cases h6 : fmt = DYLD_CHAINED_PTR_64_KERNEL_CACHE
            · rw [if_pos h6] at h
              repeat' split at h
              all_goals try exact Outcome.noConfusion h
              all_goals injection h with hh
              all_goals cases hh
              all_goals subst h6
              all_goals exact ⟨rfl, rfl⟩
            · rw [if_neg h6] at h
              by_cases h7 : fmt = DYLD_CHAINED_PTR_X86_64_KERNEL_CACHE
              · rw [if_pos h7] at h
                repeat' split at h
                all_goals try exact Outcome.noConfusion h
                all_goals injection h with hh
                all_goals cases hh
                all_goals subst h7
                all_goals exact ⟨rfl, rfl⟩
              · rw [if_neg h7] at h
                by_cases h8 : fmt = DYLD_CHAINED_PTR_ARM64E_KERNEL
                · rw [if_pos h8] at h
                  cases hr : readUIntAt bo img loc 8 with
                  | none => rw [hr] at h; exact Outcome.noConfusion h
                  | some w =>
                    rw [hr] at h
                    obtain ⟨ha, hw, hn⟩ := arm64eStep_ok h
                    subst h8
                    exact ⟨ha, by rw [hw]; exact hn⟩
                · rw [if_neg h8] at h
                  by_cases h9 : fmt = DYLD_CHAINED_PTR_ARM64E_FIRMWARE
                  · rw [if_pos h9] at h
                    cases hr : readUIntAt bo img loc 8 with
                    | none => rw [hr] at h; exact Outcome.noConfusion h
                    | some w =>
                      rw [hr] at h
                      obtain ⟨ha, hw, hn⟩ := arm64eStep_ok h
                      subst h9
                      exact ⟨ha, by rw [hw]; exact hn⟩
                  · rw [if_neg h9] at h
                    by_cases h10 : fmt = DYLD_CHAINED_PTR_ARM64E
                    · rw [if_pos h10] at h
                      cases hr : readUIntAt bo img loc 8 with
                      | none => rw [hr] at h; exact Outcome.noConfusion h
                      | some w =>
                        rw [hr] at h
                        obtain ⟨ha, hw, hn⟩ := arm64eStep_ok h
                        subst h10
                        exact ⟨ha, by rw [hw]; exact hn⟩
                    · rw [if_neg h10] at h
                      by_cases h11 : fmt = DYLD_CHAINED_PTR_ARM64E_USERLAND
                      · rw [if_pos h11] at h
                        cases hr : readUIntAt bo img loc 8 with
                        | none => rw [hr] at h; exact Outcome.noConfusion h
                        | some w =>
                          rw [hr] at h
                          obtain ⟨ha, hw, hn⟩ := arm64eStep_ok h
                          subst h11
                          exact ⟨ha, by rw [hw]; exact hn⟩
                      · rw [if_neg h11] at h
                        by_cases h12 : fmt = DYLD_CHAINED_PTR_ARM64E_USERLAND24
                        · rw [if_pos h12] at h
                          cases hr : readUIntAt bo img loc 8 with
                          | none => rw [hr] at h; exact Outcome.noConfusion h
                          | some w =>
                            rw [hr] at h
                            obtain ⟨ha, hw, hn⟩ := arm64e24Step_ok h
                            subst h12
                            exact ⟨ha, by rw [hw]; exact hn⟩
                        · rw [if_neg h12] at h
                          exact Outcome.noConfusion h

lemma walkChain_ok_parts (bo : ByteOrder) (img : List Nat) (imps : List DcfImport)
    (fmt : Nat) :
    ∀ fuel loc l, walkChain bo img imps fmt fuel loc = .ok l →
      l.head?.map Fixup.loc = some loc ∧
      (∀ f, l.getLast? = some f → nextOf fmt f.raw = 0) ∧
      ∀ i : Nat, ∀ hi : i + 1 < l.length,
        nextOf fmt (l.get ⟨i, Nat.lt_of_succ_lt hi⟩).raw ≠ 0 ∧
        (l.get ⟨i + 1, hi⟩).loc =
          add64 ((l.get ⟨i, Nat.lt_of_succ_lt hi⟩).loc)
            (nextOf fmt ((l.get ⟨i, Nat.lt_of_succ_lt hi⟩).raw) * stride fmt) := by
  intro fuel
  induction fuel with
  | zero => intro loc l h; exact Outcome.noConfusion h
  | succ fuel ih =>
    intro loc l h
    rw [walkChain] at h
    cases hs : slotStep bo img imps fmt loc with
    | ok pr =>
      obtain ⟨rec, n⟩ := pr
      rw [hs] at h
      dsimp only at h
      obtain ⟨hloc, hnext⟩ := slotStep_ok hs
      by_cases hn : n = 0
      · rw [if_pos hn] at h
        injection h with h2
        subst h2
        refine ⟨by simp [hloc], ?_, ?_⟩
        · intro f hf
          simp only [List.getLast?_singleton, Option.some.injEq] at hf
          subst hf
          rw [← hnext, hn]
        · intro i hi
          simp at hi
      · rw [if_neg hn] at h
        cases hw : walkChain bo img imps fmt fuel (add64 loc (n * stride fmt)) with
        | ok l2 =>
          rw [hw] at h
          simp only [Outcome.map] at h
          injection h with h2
          subst h2
          obtain ⟨ihHead, ihLast, ihStep⟩ := ih _ _ hw
          have hl2ne : l2 ≠ [] := by
            intro hemp
            rw [hemp] at ihHead
            simp at ihHead
          refine ⟨by simp [hloc], ?_, ?_⟩
          · intro f hf
            cases l2 with
            | nil => exact absurd rfl hl2ne
            | cons x t =>
              rw [List.getLast?_cons_cons] at hf
              exact ihLast f hf
          · intro i hi
            cases i with
            | zero =>
              refine ⟨by rw [show (rec :: l2).get ⟨0, Nat.lt_of_succ_lt hi⟩ = rec from rfl, ← hnext]; exact hn, ?_⟩
              cases l2 with
              | nil => exact absurd rfl hl2ne
              | cons x t =>
                have hx : x.loc = add64 loc (n * stride fmt) := by
                  simpa using ihHead
                show x.loc = add64 (Fixup.loc rec) (nextOf fmt rec.raw * stride fmt)
                rw [hloc, ← hnext, hx]
            | succ j =>
              have hj : j + 1 < l2.length := by
                simp only [List.length_cons] at hi
                omega
              obtain ⟨hstep1, hstep2⟩ := ihStep j hj
              exact ⟨hstep1, hstep2⟩
        | fail e => rw [hw] at h; exact Outcome.noConfusion h
        | crash p => rw [hw] at h; exact Outcome.noConfusion h
        | fuelOut => rw [hw] at h; exact Outcome.noConfusion h
    | fail e => rw [hs] at h; exact Outcome.noConfusion h
    | crash p => rw [hs] at h; exact Outcome.noConfusion h
    | fuelOut => rw [hs] at h; exact Outcome.noConfusion h

lemma walkChain_ok_locsum (bo : ByteOrder) (img : List Nat) (imps : List DcfImport)
    (fmt : Nat) :
    ∀ fuel loc l, walkChain bo img imps fmt fuel loc = .ok l → loc < M64 →
      ∀ i : Nat, ∀ hi : i < l.length,
        (l.get ⟨i, hi⟩).loc =
          (loc + ((l.take i).map (fun f => nextOf fmt f.raw * stride fmt)).sum) % M64 := by
  intro fuel
  induction fuel with
  | zero => intro loc l h; exact Outcome.noConfusion h
  | succ fuel ih =>
    intro loc l h hloc64
    rw [walkChain] at h
    cases hs : slotStep bo img imps fmt loc with
    | ok pr =>
      obtain ⟨rec, n⟩ := pr
      rw [hs] at h
      dsimp only at h
      obtain ⟨hloc, hnext⟩ := slotStep_ok hs
      by_cases hn : n = 0
      · rw [if_pos hn] at h
        injection h with h2
        subst h2
        intro i hi
        cases i with
        | zero => simpa using hloc.trans (Nat.mod_eq_of_lt hloc64).symm
        | succ j => simp at hi
      · rw [if_neg hn] at h
        cases hw : walkChain bo img imps fmt fuel (add64 loc (n * stride fmt)) with
        | ok l2 =>
          rw [hw] at h
          simp only [Outcome.map] at h
          injection h with h2
          subst h2
          have hloc2 : add64 loc (n * stride fmt) < M64 := by
            have : 0 < M64 := by decide
            exact Nat.mod_lt _ this
          have ih2 := ih _ _ hw hloc2
          intro i hi
          cases i with
          | zero => simpa using hloc.trans (Nat.mod_eq_of_lt hloc64).symm
          | succ j =>
            have hj : j < l2.length := by
              simp only [List.length_cons] at hi
              omega
            have := ih2 j hj
            rw [show (rec :: l2).get ⟨j + 1, hi⟩ = l2.get ⟨j, hj⟩ from rfl]
            rw [this]
            rw [show (rec :: l2).take (j + 1) = rec :: l2.take j from rfl]
            simp only [List.map_cons, List.sum_cons]
            rw [← hnext, add64]
            rw [Nat.mod_add_mod]
            congr 1
            omega
        | fail e => rw [hw] at h; exact Outcome.noConfusion h
        | crash p => rw [hw] at h; exact Outcome.noConfusion h
        | fuelOut => rw [hw] at h; exact Outcome.noConfusion h
    | fail e => rw [hs] at h; exact Outcome.noConfusion h
    | crash p => rw [hs] at h; exact Outcome.noConfusion h
    | fuelOut => rw [hs] at h; exact Outcome.noConfusion h

lemma multiWalk_eq_walkAll (w : Nat → Outcome (List Fixup)) :
    ∀ pre e rest, (∀ x ∈ pre, x &&& DYLD_CHAINED_PTR_START_LAST = 0) →
      e &&& DYLD_CHAINED_PTR_START_LAST ≠ 0 →
      multiWalk w (pre ++ e :: rest) =
        walkAll w ((pre ++ [e]).map (fun x => x &&& 0xBFFF)) := by
  intro pre
  induction pre with
  | nil =>
    intro e rest _ he
    simp only [List.nil_append, List.map_cons, List.map_nil]
    rw [multiWalk, walkAll]
    cases hw : w (e &&& 0xBFFF) with
    | ok fs => simp [he, walkAll, Outcome.map]
    | fail er => rfl
    | crash p => rfl
    | fuelOut => rfl
  | cons x pre ih =>
    intro e rest hpre he
    have hx : x &&& DYLD_CHAINED_PTR_START_LAST = 0 := hpre x (by simp)
    simp only [List.cons_append, List.map_cons]
    rw [multiWalk, walkAll]
    cases hw : w (x &&& 0xBFFF) with
    | ok fs =>
      simp only [hx, ne_eq, not_true_eq_false, if_neg]
      rw [ih e rest (fun y hy => hpre y (by simp [hy])) he]
      simp
    | fail er => rfl
    | crash p => rfl
    | fuelOut => rfl

/-! ## Shared lemmas about the overlay and the query surface -/

lemma add64_small {a b : Nat} (h : a + b < M64) : add64 a b = a + b :=
  Nat.mod_eq_of_lt h

lemma sub64_small {a b : Nat} (ha : a < M64) (hba : b ≤ a) : sub64 a b = a - b := by
  have hb : b % M64 = b := Nat.mod_eq_of_lt (lt_of_le_of_lt hba ha)
  have hM : 0 < M64 := by decide
  unfold sub64
  rw [hb]
  have h1 : a + (M64 - b) = M64 + (a - b) := by omega
  rw [h1, Nat.add_mod_left]
  exact Nat.mod_eq_of_lt (by omega)

lemma putUint_length (bo : ByteOrder) (n v : Nat) : (putUint bo n v).length = n := by
  cases bo <;> simp [putUint]

lemma sliceGo_empty {l : List Nat} {a : Nat} (h : a ≤ l.length) :
    sliceGo l a a = some [] := by
  simp [sliceGo, h]

lemma writeAt_nil (p : List Nat) (i : Nat) : writeAt p i [] = p := by
  simp [writeAt]

lemma patch_finish_zero (bo : ByteOrder) (ps base : Nat) (r : RebaseRec) (p : List Nat)
    (dstOff srcOff : Nat) (hsrc : srcOff ≤ ps) (hdst : dstOff ≤ p.length) :
    (match sliceGo (putUint bo ps r.raw) srcOff (srcOff + 0),
           sliceGo p dstOff (dstOff + 0) with
     | some bs, some ds =>
       if bs ≠ ds then Outcome.fail (GoErr.overlayMismatch r.off)
       else Outcome.ok (writeAt p dstOff
         (((putUint bo ps (r.resolve base)).drop srcOff).take 0))
     | _, _ => Outcome.crash GoPanic.sliceOutOfRange) = .ok p := by
  rw [Nat.add_zero, Nat.add_zero]
  rw [sliceGo_empty (l := putUint bo ps r.raw) (by rw [putUint_length]; exact hsrc),
      sliceGo_empty hdst]
  simp [writeAt_nil]

lemma patchStep_noop (bo : ByteOrder) (ps base off : Nat) (r : RebaseRec) (p : List Nat)
    (hb : off + p.length < M64) (hr : r.off + ps < M64)
    (hd : r.off + ps ≤ off ∨ off + p.length ≤ r.off) :
    patchStep bo ps base off r p = .ok p := by
  have hmx : add64 off p.length = off + p.length := add64_small hb
  have hrp : add64 r.off ps = r.off + ps := add64_small hr
  unfold patchStep
  rw [hmx, hrp]
  rcases hd with hle | hge
  · by_cases hlt : r.off + ps < off
    · rw [if_pos (Or.inl hlt)]
    · have heq : r.off + ps = off := by omega
      have hnc : ¬(r.off + ps < off ∨ r.off > off + p.length) := by omega
      rw [if_neg hnc]
      by_cases hro : r.off < off
      · -- ps > 0, the slot ends exactly at off
        simp only [if_pos hro]
        have hso : sub64 off r.off = ps := by
          rw [sub64_small (by omega) (by omega)]
          omega
        rw [hso]
        have hds : sub64 ps ps = 0 := by
          rw [sub64_small (by omega) (le_refl ps)]
          omega
        rw [hds]
        have hg : ¬(add64 r.off 0 > off + p.length) := by
          rw [add64_small (by omega)]
          omega
        rw [if_neg hg]
        exact patch_finish_zero bo ps base r p 0 ps (le_refl ps) (Nat.zero_le _)
      · -- ps = 0 and r.off = off
        have hps : ps = 0 := by omega
        simp only [if_neg hro]
        have hd0 : sub64 r.off off = 0 := by
          rw [sub64_small (by omega) (by omega)]
          omega
        rw [hd0]
        have hg : ¬(add64 r.off ps > off + p.length) := by
          rw [add64_small (by omega)]
          omega
        rw [if_neg hg]
        rw [hps]
        exact patch_finish_zero bo 0 base r p 0 0 (le_refl 0) (Nat.zero_le _)
  · by_cases hgt : r.off > off + p.length
    · rw [if_pos (Or.inr hgt)]
    · have heq : r.off = off + p.length := by omega
      have hnc : ¬(r.off + ps < off ∨ r.off > off + p.length) := by omega
      rw [if_neg hnc]
      have hro : ¬(r.off < off) := by omega
      simp only [if_neg hro]
      have hd0 : sub64 r.off off = p.length := by
        rw [sub64_small (by omega) (by omega)]
        omega
      rw [hd0]
      by_cases hps : ps = 0
      · have hg : ¬(add64 r.off ps > off + p.length) := by
          rw [add64_small (by omega)]
          omega
        rw [if_neg hg, hps]
        exact patch_finish_zero bo 0 base r p p.length 0 (le_refl 0) (le_refl _)
      · have hg : add64 r.off ps > off + p.length := by
          rw [add64_small (by omega)]
          omega
        rw [if_pos hg]
        have hs1 : sub64 (add64 r.off ps) (off + p.length) = ps := by
          rw [add64_small (by omega), sub64_small (by omega) (by omega)]
          omega
        rw [hs1]
        have hs2 : sub64 ps ps = 0 := by
          rw [sub64_small (by omega) (le_refl ps)]
          omega
        rw [hs2]
        exact patch_finish_zero bo ps base r p p.length 0 (Nat.zero_le _) (le_refl _)

lemma rebasePointer_cons_skip (s : DyldChainedStarts) (rest : List DyldChainedStarts)
    (pla ptr : Nat) (h : decidesRebase s ptr = false) :
    rebasePointer (s :: rest) pla ptr = rebasePointer rest pla ptr := by
  rw [rebasePointer]
  by_cases h0 : s.seg.pageCount = 0
  · rw [if_pos h0]
  · rw [if_neg h0]
    by_cases hf32 : s.seg.pointerFormat = DYLD_CHAINED_PTR_32
    · rw [if_pos hf32]
      cases hgb : Generic32IsBind (ptr % 2 ^ 32) with
      | false =>
        unfold decidesRebase at h
        rw [hf32, hgb] at h
        simp [h0, DYLD_CHAINED_PTR_32, DYLD_CHAINED_PTR_64, DYLD_CHAINED_PTR_ARM64E] at h
      | true => simp [hgb]
    · rw [if_neg hf32]
      by_cases hf64 : s.seg.pointerFormat = DYLD_CHAINED_PTR_64
      · rw [if_pos hf64]
        cases hgb : Generic64IsBind ptr with
        | false =>
          unfold decidesRebase at h
          rw [hf64, hgb] at h
          simp [h0, DYLD_CHAINED_PTR_32, DYLD_CHAINED_PTR_64, DYLD_CHAINED_PTR_ARM64E] at h
        | true => simp [hgb]
      · rw [if_neg hf64]
        by_cases hfa : s.seg.pointerFormat = DYLD_CHAINED_PTR_ARM64E
        · rw [if_pos hfa]
          cases hgb : DcpArm64eIsBind ptr with
          | false =>
            unfold decidesRebase at h
            rw [hfa, hgb] at h
            simp [h0, DYLD_CHAINED_PTR_32, DYLD_CHAINED_PTR_64, DYLD_CHAINED_PTR_ARM64E] at h
          | true => simp [hgb]
        · rw [if_neg hfa]

/-! ## Claim theorems -/

/-- C1: on a payload whose imports parse to 3 entries and an image whose
PTR_64 slot is a bind with ordinal 5, `Parse` hits the unchecked
`Imports[bind.Ordinal()]` indexing and panics with index-out-of-range
instead of returning an error that reports the ordinal and the slot's
offset. -/
theorem c1_ordinal_out_of_range_panics :
    (parseImports .le payloadOrd 60 3 1 72).1.length = 3 ∧
    (parseStarts .le payloadOrd).toOk.map
      (fun pr => (pr.1.importsOffset, pr.1.importsCount, pr.1.importsFormat,
                  pr.1.symbolsOffset)) = some (60, 3, 1, 72) ∧
    parseFull .le payloadOrd imageOrd = .crash .indexOutOfRange := by
  refine ⟨by decide, by decide, by decide⟩

/-- C2 (counterexample): `Parse` succeeds on a segment of size 8 whose
chain visits offsets 2 and 10: the second fixup lies outside
`[segment_offset, segment_offset + size)` and the first is not
stride-aligned, yet no error is raised. -/
theorem c2_counterexample :
    (parseFull .le payloadEsc imageEsc).isOk = true ∧
    (parseFull .le payloadEsc imageEsc).toOk.map allFixupLocs = some [2, 10] ∧
    (parseFull .le payloadEsc imageEsc).toOk.map
      (fun d => d.starts.map (fun s => (s.seg.segmentOffset, s.seg.size)))
      = some [(0, 8)] ∧
    ¬(10 < 0 + 8) ∧ (2 - 0) % stride DYLD_CHAINED_PTR_64 ≠ 0 := by
  refine ⟨by decide, by decide, by decide, by decide, by decide⟩

/-- C2 (amended): every fixup emitted by a chain walk is at location
`chain_start + Σ (preceding next · stride(format))` modulo 2^64; the
walker enforces no segment-bounds and no stride-alignment restriction, and
an advance that leaves the segment does not by itself cause an error. -/
theorem c2_amended_walk_location_formula (bo : ByteOrder) (img : List Nat)
    (imps : List DcfImport) (fmt fuel loc : Nat) (l : List Fixup)
    (h : walkChain bo img imps fmt fuel loc = .ok l) (hloc : loc < M64) :
    ∀ i : Nat, ∀ hi : i < l.length,
      (l.get ⟨i, hi⟩).loc =
        (loc + ((l.take i).map (fun f => nextOf fmt f.raw * stride fmt)).sum) % M64 :=
  walkChain_ok_locsum bo img imps fmt fuel loc l h hloc

/-- Witness for the amended C2 theorem at a concrete two-slot chain. -/
theorem c2_amended_witness :
    (walkChain .le imageChain [] 2 14 0 = .ok chainFixups ∧ (0 : Nat) < M64) ∧
    ∀ i : Nat, ∀ hi : i < chainFixups.length,
      (chainFixups.get ⟨i, hi⟩).loc =
        (0 + ((chainFixups.take i).map
          (fun f => nextOf 2 f.raw * stride 2)).sum) % M64 :=
  ⟨⟨by decide, by decide⟩,
   c2_amended_walk_location_formula .le imageChain [] 2 14 0 chainFixups
     (by decide) (by decide)⟩

/-- C3: on a payload whose single import has an unterminated symbol
string, `parseImports` returns the unterminated-string error, but `Parse`
discards it (line `dcf.parseImports()`) and returns success with an
empty import list instead of propagating the error. -/
theorem c3_import_error_discarded :
    (parseImports .le payloadNoNul 32 1 1 36).2 = some (.unterminatedString 36) ∧
    (parseStarts .le payloadNoNul).toOk.map
      (fun pr => (pr.1.importsOffset, pr.1.importsCount, pr.1.importsFormat,
                  pr.1.symbolsOffset)) = some (32, 1, 1, 36) ∧
    (parseFull .le payloadNoNul []).isOk = true ∧
    (parseFull .le payloadNoNul []).toOk.map (fun d => d.imports.length) = some 0 := by
  refine ⟨by decide, by decide, by decide, by decide⟩

/-- C4 (counterexample): a payload whose header carries
`symbols_format = 1` parses successfully; the compressed format is not
rejected. -/
theorem c4_counterexample :
    (parseStarts .le payloadZlib).toOk.map (fun pr => pr.1.symbolsFormat) = some 1 ∧
    (parseFull .le payloadZlib []).isOk = true := by
  refine ⟨by decide, by decide⟩

/-- C4 (amended): parsing never inspects `symbols_format`: the outcome on
a header with `symbols_format = a` is the outcome on the same header with
`symbols_format = 0`, with only the recorded header field differing; in
particular a zlib-compressed pool (value 1) is processed exactly as raw. -/
theorem c4_amended_symbols_format_ignored (bo : ByteOrder)
    (h : DyldChainedFixupsHeader) (starts : List DyldChainedStarts)
    (payload img : List Nat) (a : Nat) :
    parseWithHeader bo { h with symbolsFormat := a } starts payload img =
      (parseWithHeader bo { h with symbolsFormat := 0 } starts payload img).map
        (fun d => { d with header := { d.header with symbolsFormat := a } }) := by
  cases h with
  | mk v so io syo ic ifo sf =>
    simp only [parseWithHeader]
    cases parseBody bo io ic ifo syo starts payload img <;> simp [Outcome.map]

/-- C5: in every successfully walked chain, a record is emitted at each
visited location: the first record sits at the chain start, consecutive
records are `next · stride(format)` apart (uint64 addition), every
non-terminal record has a non-zero decoded `next`, and the chain ends
exactly at the first record whose decoded `next` is zero (that terminal
record is still emitted). -/
theorem c5_chain_emission_and_termination (bo : ByteOrder) (img : List Nat)
    (imps : List DcfImport) (fmt fuel loc : Nat) (l : List Fixup)
    (h : walkChain bo img imps fmt fuel loc = .ok l) :
    l.head?.map Fixup.loc = some loc ∧
    (∀ f, l.getLast? = some f → nextOf fmt f.raw = 0) ∧
    ∀ i : Nat, ∀ hi : i + 1 < l.length,
      nextOf fmt (l.get ⟨i, Nat.lt_of_succ_lt hi⟩).raw ≠ 0 ∧
      (l.get ⟨i + 1, hi⟩).loc =
        add64 ((l.get ⟨i, Nat.lt_of_succ_lt hi⟩).loc)
          (nextOf fmt ((l.get ⟨i, Nat.lt_of_succ_lt hi⟩).raw) * stride fmt) :=
  walkChain_ok_parts bo img imps fmt fuel loc l h

/-- Witness for C5 at a concrete two-slot chain. -/
theorem c5_witness :
    walkChain .le imageChain [] 2 14 0 = .ok chainFixups ∧
    (chainFixups.head?.map Fixup.loc = some 0 ∧
     (∀ f, chainFixups.getLast? = some f → nextOf 2 f.raw = 0) ∧
     ∀ i : Nat, ∀ hi : i + 1 < chainFixups.length,
       nextOf 2 (chainFixups.get ⟨i, Nat.lt_of_succ_lt hi⟩).raw ≠ 0 ∧
       (chainFixups.get ⟨i + 1, hi⟩).loc =
         add64 ((chainFixups.get ⟨i, Nat.lt_of_succ_lt hi⟩).loc)
           (nextOf 2 ((chainFixups.get ⟨i, Nat.lt_of_succ_lt hi⟩).raw) * stride 2)) :=
  ⟨by decide,
   c5_chain_emission_and_termination .le imageChain [] 2 14 0 chainFixups (by decide)⟩

/-- C6: a page-start value with the MULTI bit runs chains for the
contiguous run of `page_starts` entries beginning at index
`value & 0x7FFF`, walking each entry's value with the LAST bit cleared as
the in-page chain-head offset, and stops after the first entry carrying
the LAST bit; a page-start equal to NONE (0xFFFF) is skipped entirely. -/
theorem c6_multi_page_starts (w : Nat → Outcome (List Fixup)) (ps : List Nat)
    (raw : Nat) (pre : List Nat) (e : Nat) (rest : List Nat)
    (hnone : raw ≠ DYLD_CHAINED_PTR_START_NONE)
    (hmulti : raw &&& DYLD_CHAINED_PTR_START_MULTI ≠ 0)
    (hdrop : ps.drop (raw &&& 0x7FFF) = pre ++ e :: rest)
    (hpre : ∀ x ∈ pre, x &&& DYLD_CHAINED_PTR_START_LAST = 0)
    (he : e &&& DYLD_CHAINED_PTR_START_LAST ≠ 0) :
    processPage w ps raw = walkAll w ((pre ++ [e]).map (fun x => x &&& 0xBFFF)) ∧
    processPage w ps DYLD_CHAINED_PTR_START_NONE = .ok [] := by
  constructor
  · rw [processPage, if_neg hnone, if_pos hmulti, hdrop]
    exact multiWalk_eq_walkAll w pre e rest hpre he
  · simp [processPage]

/-- Witness for C6 on the S4 page-starts array. -/
theorem c6_witness :
    psMulti.drop (0x8002 &&& 0x7FFF) = [] ++ 0x4020 :: [0x0030] ∧
    processPage (fun off => walkChain .le img32 [] 3 38 off) psMulti 0x8002 =
      walkAll (fun off => walkChain .le img32 [] 3 38 off)
        (([] ++ [0x4020]).map (fun x => x &&& 0xBFFF)) ∧
    processPage (fun off => walkChain .le img32 [] 3 38 off) psMulti
      DYLD_CHAINED_PTR_START_NONE = .ok [] := by
  refine ⟨by decide, ?_, ?_⟩
  · exact (c6_multi_page_starts (fun off => walkChain .le img32 [] 3 38 off)
      psMulti 0x8002 [] 0x4020 [0x0030] (by decide) (by decide) (by decide)
      (by intro x hx; simp at hx) (by decide)).1
  · exact (c6_multi_page_starts (fun off => walkChain .le img32 [] 3 38 off)
      psMulti 0x8002 [] 0x4020 [0x0030] (by decide) (by decide) (by decide)
      (by intro x hx; simp at hx) (by decide)).2

/-- C7: when the scan of `RebasePointer` reaches a segment of format
ARM64E with pages and the pointer has the bind bit clear and the auth bit
set, the result is the slot's 32-bit target field plus the preferred load
address (uint64 addition). -/
theorem c7_arm64e_auth_rebase (pre : List DyldChainedStarts) (s : DyldChainedStarts)
    (post : List DyldChainedStarts) (pla ptr : Nat)
    (hpre : ∀ t ∈ pre, decidesRebase t ptr = false)
    (hpc : s.seg.pageCount ≠ 0)
    (hfmt : s.seg.pointerFormat = DYLD_CHAINED_PTR_ARM64E)
    (hbind : DcpArm64eIsBind ptr = false)
    (hauth : DcpArm64eIsAuth ptr = true) :
    rebasePointer (pre ++ s :: post) pla ptr =
      add64 (dcpArm64eAuthRebaseTarget ptr) pla := by
  induction pre with
  | nil =>
    simp only [List.nil_append]
    rw [rebasePointer, if_neg hpc, hfmt]
    rw [if_neg (by decide : ¬(DYLD_CHAINED_PTR_ARM64E = DYLD_CHAINED_PTR_32))]
    rw [if_neg (by decide : ¬(DYLD_CHAINED_PTR_ARM64E = DYLD_CHAINED_PTR_64))]
    rw [if_pos (rfl : DYLD_CHAINED_PTR_ARM64E = DYLD_CHAINED_PTR_ARM64E)]
    simp [hbind, hauth]
  | cons t pre ih =>
    rw [List.cons_append,
      rebasePointer_cons_skip t (pre ++ s :: post) pla ptr (hpre t (by simp))]
    exact ih (fun u hu => hpre u (by simp [hu]))

/-- Witness for C7: spec scenario S5 resolves to `0x100004000`. -/
theorem c7_witness :
    (segArm64e.seg.pageCount ≠ 0 ∧ DcpArm64eIsBind ptrS5 = false ∧
     DcpArm64eIsAuth ptrS5 = true) ∧
    rebasePointer [segArm64e] 0x100000000 ptrS5 = 0x100004000 :=
  ⟨⟨by decide, by decide, by decide⟩,
   (c7_arm64e_auth_rebase [] segArm64e [] 0x100000000 ptrS5
      (by intro t ht; simp at ht) (by decide) (by decide) (by decide)
      (by decide)).trans (by decide)⟩

/-- C8: a 2-byte read at offset 4, strictly inside the recorded 8-byte
rebase slot at offset 0, makes `patchReadBytes` slice the buffer out of
range and panic — even though the delivered bytes (bytes 4..6 of the
slot's raw word) match the recorded raw value, so the claimed
verify-then-patch behaviour does not happen. -/
theorem c8_overlay_strict_containment_panics :
    lrrReadAt .le [⟨0, 0, fun b => b⟩] 8 0 [0, 0] 4 = .crash .sliceOutOfRange ∧
    sliceGo (putUint .le 8 0) 4 6 = some [0, 0] := by
  refine ⟨by decide, by decide⟩

/-- C9: a read whose range touches no recorded rebase slot comes back
from the overlay unchanged (offsets below 2^64, i.e. within Go `uint64`
range). -/
theorem c9_overlay_conservation (bo : ByteOrder) (rebases : List RebaseRec)
    (ps base : Nat) (p : List Nat) (off : Nat)
    (hb : off + p.length < M64)
    (hr : ∀ r ∈ rebases, r.off + ps < M64)
    (hd : ∀ r ∈ rebases, r.off + ps ≤ off ∨ off + p.length ≤ r.off) :
    lrrReadAt bo rebases ps base p off = .ok p := by
  unfold lrrReadAt
  induction rebases with
  | nil => rfl
  | cons r rest ih =>
    rw [patchReadBytes,
      patchStep_noop bo ps base off r p hb (hr r (by simp)) (hd r (by simp))]
    exact ih (fun u hu => hr u (by simp [hu])) (fun u hu => hd u (by simp [hu]))

/-- Witness for C9 at a concrete disjoint read. -/
theorem c9_witness :
    (∀ r ∈ [(⟨100, 0, fun b => b⟩ : RebaseRec)],
      r.off + 8 ≤ 0 ∨ 0 + [1, 2, 3].length ≤ r.off) ∧
    lrrReadAt .le [⟨100, 0, fun b => b⟩] 8 0 [1, 2, 3] 0 = .ok [1, 2, 3] :=
  ⟨by intro r hr; simp at hr; subst hr; right; decide,
   c9_overlay_conservation .le [⟨100, 0, fun b => b⟩] 8 0 [1, 2, 3] 0 (by decide)
     (by intro r hr; simp at hr; subst hr; decide)
     (by intro r hr; simp at hr; subst hr; right; decide)⟩

/-- C10: when every segment with pages has a pointer format other than
PTR_32, PTR_64 and ARM64E, `GetImportForPointer` returns the
not-a-bind-pointer error and `RebasePointer` returns the pointer
unchanged, whatever the pointer's bits. -/
theorem c10_unhandled_formats (starts : List DyldChainedStarts)
    (imports : List DcfImport) (ptr pla : Nat)
    (h : ∀ s ∈ starts, s.seg.pageCount ≠ 0 →
         s.seg.pointerFormat ≠ DYLD_CHAINED_PTR_32 ∧
         s.seg.pointerFormat ≠ DYLD_CHAINED_PTR_64 ∧
         s.seg.pointerFormat ≠ DYLD_CHAINED_PTR_ARM64E) :
    getImportForPointer starts imports ptr = .fail .notABindPointer ∧
    rebasePointer starts pla ptr = ptr := by
  induction starts with
  | nil => exact ⟨rfl, rfl⟩
  | cons s rest ih =>
    have ihh := ih (fun u hu hc => h u (by simp [hu]) hc)
    by_cases h0 : s.seg.pageCount = 0
    · constructor
      · rw [getImportForPointer, if_pos h0]
        exact ihh.1
      · rw [rebasePointer, if_pos h0]
        exact ihh.2
    · obtain ⟨f3, f2, f1⟩ := h s (by simp) h0
      constructor
      · rw [getImportForPointer, if_neg h0, if_neg f3, if_neg f2, if_neg f1]
        exact ihh.1
      · rw [rebasePointer, if_neg h0, if_neg f3, if_neg f2, if_neg f1]
        exact ihh.2

/-- Witness for C10 on a PTR_64_OFFSET segment and a pointer with the
bind bit set. -/
theorem c10_witness :
    (∀ s ∈ [segOffsetFmt], s.seg.pageCount ≠ 0 →
       s.seg.pointerFormat ≠ DYLD_CHAINED_PTR_32 ∧
       s.seg.pointerFormat ≠ DYLD_CHAINED_PTR_64 ∧
       s.seg.pointerFormat ≠ DYLD_CHAINED_PTR_ARM64E) ∧
    getImportForPointer [segOffsetFmt] [] 0x8000000000000000 =
      .fail .notABindPointer ∧
    rebasePointer [segOffsetFmt] 0 0x8000000000000000 = 0x8000000000000000 := by
  refine ⟨?_, ?_, ?_⟩
  · intro s hs _
    simp at hs
    subst hs
    exact ⟨by decide, by decide, by decide⟩
  · exact (c10_unhandled_formats [segOffsetFmt] [] 0x8000000000000000 0
      (by intro s hs _; simp at hs; subst hs; exact ⟨by decide, by decide, by decide⟩)).1
  · exact (c10_unhandled_formats [segOffsetFmt] [] 0x8000000000000000 0
      (by intro s hs _; simp at hs; subst hs; exact ⟨by decide, by decide, by decide⟩)).2
